import Mathlib

/-!
Verification of the simulation/interaction core of `src/src/main.rs`
(Bevy Game of Life): the grid state model, the generation-step algorithm
`update_cells`, the time-gated scheduler `should_update_run`, and the
mouse editing handler `spawn_cells_with_mouse`.

Machine integers are embedded as `Nat`/`Int` with explicit wrapping where
the Rust code wraps (`i8` arithmetic, the `i8 → usize` cast), and fallible
array indexing is embedded as `Option` (a `none` result models a Rust
index-out-of-bounds panic).
-/

/-- `const GRID_WIDTH: usize = 50;` -/
def GRID_WIDTH : Nat := 50

/-- `const GRID_HEIGHT: usize = 50;` -/
def GRID_HEIGHT : Nat := 50

/-- `(SPEED * 1000.0) as u128` where `const SPEED: f64 = 0.5`; the float
product `0.5 * 1000.0` is exactly `500.0`, so the cast yields `500`. -/
def SPEED_MS : Nat := 500

/-- `const NEIGHBORS: [[i8;2];8]`, the eight Moore-neighborhood offsets. -/
def NEIGHBORS : List (Int × Int) :=
  [(-1, -1), (0, -1), (1, -1),
   (-1, 0), (1, 0),
   (-1, 1), (0, 1), (1, 1)]

/-- `StateGrid([[bool; GRID_HEIGHT]; GRID_WIDTH])`, indexed `[x][y]`;
only indices `x < GRID_WIDTH`, `y < GRID_HEIGHT` are meaningful. -/
def Grid : Type := Nat → Nat → Bool

/-- Checked 2D array read `grid[x][y]`; `none` models the Rust panic on an
out-of-bounds index. -/
def getCell (g : Grid) (x y : Nat) : Option Bool :=
  if x < GRID_WIDTH ∧ y < GRID_HEIGHT then some (g x y) else none

/-- Pointwise functional update of the grid at `(x, y)`. -/
def writeCell (g : Grid) (x y : Nat) (v : Bool) : Grid :=
  fun a b => if a = x ∧ b = y then v else g a b

/-- Checked 2D array write `grid[x][y] = v`; `none` models the Rust panic
on an out-of-bounds index. -/
def setCell (g : Grid) (x y : Nat) (v : Bool) : Option Grid :=
  if x < GRID_WIDTH ∧ y < GRID_HEIGHT then some (writeCell g x y v) else none

/-- Wrapping `i8` arithmetic: the value of an `i8` expression reduced into
`[-128, 127]`. -/
def i8_wrap (v : Int) : Int := (v + 128) % 256 - 128

/-- The neighbor index computation of `update_cells`:
`(d + x as i8) as usize % dim`.  The `i8 → usize` cast sign-extends, i.e.
takes the value modulo `2^64` (64-bit target), and only then the remainder
by the grid dimension is taken. -/
def nbIdx (dim : Nat) (x : Nat) (d : Int) : Nat :=
  ((i8_wrap (d + (x : Int))) % (2 ^ 64 : Int)).toNat % dim

/-- The neighbor-counting inner loop of `update_cells`, reading from the
pre-step snapshot `initial` with checked indexing. -/
def countNb (initial : Grid) (x y : Nat) : List (Int × Int) → Nat → Option Nat
  | [], n => some n
  | d :: ds, n =>
    match getCell initial (nbIdx GRID_WIDTH x d.1) (nbIdx GRID_HEIGHT y d.2) with
    | none => none
    | some b => countNb initial x y ds (if b then n + 1 else n)

/-- `num_alive_nb` for cell `(x, y)`: the fold of `countNb` over the eight
offsets starting from `0`. -/
def countAliveNeighbors (initial : Grid) (x y : Nat) : Option Nat :=
  countNb initial x y NEIGHBORS 0

/-- Pure (panic-free) version of the neighbor-count loop, same index
computation, total reads. -/
def countNbPure (g : Grid) (x y : Nat) : List (Int × Int) → Nat → Nat
  | [], n => n
  | d :: ds, n =>
    countNbPure g x y ds
      (if g (nbIdx GRID_WIDTH x d.1) (nbIdx GRID_HEIGHT y d.2) then n + 1 else n)

/-- Pure neighbor count of cell `(x, y)` in grid `g`. -/
def neighborCount (g : Grid) (x y : Nat) : Nat := countNbPure g x y NEIGHBORS 0

/-- The liveness transition of `update_cells`: the `if`/`else if` chain
mutating `alive` given `num_alive_nb`. -/
def lifeRule (alive0 : Bool) (n : Nat) : Bool :=
  if alive0 = true ∧ n < 2 then false
  else if alive0 = true ∧ n > 3 then false
  else if alive0 = false ∧ n = 3 then true
  else alive0

/-- The body of the double loop of `update_cells` for one cell `(x, y)`:
count neighbors in `initial`, read `initial[x][y]`, apply the rule chain,
write the result into the live grid `g`. -/
def updateCell (initial : Grid) (g : Grid) (x y : Nat) : Option Grid :=
  match countAliveNeighbors initial x y with
  | none => none
  | some n =>
    match getCell initial x y with
    | none => none
    | some alive0 => setCell g x y (lifeRule alive0 n)

/-- The inner `for y in 0..GRID_HEIGHT` loop of `update_cells`, threading
the mutated grid. -/
def updateLoopY (initial : Grid) (x : Nat) : List Nat → Grid → Option Grid
  | [], g => some g
  | y :: ys, g =>
    match updateCell initial g x y with
    | none => none
    | some g2 => updateLoopY initial x ys g2

/-- The outer `for x in 0..GRID_WIDTH` loop of `update_cells`. -/
def updateLoopX (initial : Grid) : List Nat → Grid → Option Grid
  | [], g => some g
  | x :: xs, g =>
    match updateLoopY initial x (List.range GRID_HEIGHT) g with
    | none => none
    | some g2 => updateLoopX initial xs g2

/-- `fn update_cells`: clone the grid into `initial_state_grid`, then for
every cell compute the new liveness from the clone and store it in place. -/
def update_cells (g : Grid) : Option Grid :=
  updateLoopX g (List.range GRID_WIDTH) g

/-- Synchronous two-buffer generation step, stated from the spec: every
in-range cell's next value is a function of the old grid only; out-of-range
coordinates are untouched. -/
def step_sync (g : Grid) : Grid :=
  fun x y =>
    if x < GRID_WIDTH ∧ y < GRID_HEIGHT then lifeRule (g x y) (neighborCount g x y)
    else g x y

/-! ### Basic lemmas about the step -/

theorem nbIdx_lt (dim : Nat) (x : Nat) (d : Int) (h : 0 < dim) : nbIdx dim x d < dim :=
  Nat.mod_lt _ h

theorem getCell_eq (g : Grid) (x y : Nat) (hx : x < GRID_WIDTH) (hy : y < GRID_HEIGHT) :
    getCell g x y = some (g x y) :=
  if_pos ⟨hx, hy⟩

theorem countNb_eq (g : Grid) (x y : Nat) (ds : List (Int × Int)) (n : Nat) :
    countNb g x y ds n = some (countNbPure g x y ds n) := by
  induction ds generalizing n with
  | nil => rfl
  | cons d ds ih =>
    rw [countNb, countNbPure,
      getCell_eq g _ _ (nbIdx_lt _ _ _ (by decide)) (nbIdx_lt _ _ _ (by decide))]
    exact ih _

theorem countAliveNeighbors_eq (g : Grid) (x y : Nat) :
    countAliveNeighbors g x y = some (neighborCount g x y) :=
  countNb_eq g x y NEIGHBORS 0

/-- The value stored into cell `(x, y)` by `update_cells` on snapshot
`initial`. -/
def newVal (initial : Grid) (x y : Nat) : Bool :=
  lifeRule (initial x y) (neighborCount initial x y)

theorem updateCell_eq (initial g : Grid) (x y : Nat)
    (hx : x < GRID_WIDTH) (hy : y < GRID_HEIGHT) :
    updateCell initial g x y = some (writeCell g x y (newVal initial x y)) := by
  rw [updateCell, countAliveNeighbors_eq, getCell_eq initial x y hx hy]
  exact if_pos ⟨hx, hy⟩

/-- Pure effect of the inner `y` loop: apply `newVal` writes along `ys`. -/
def applyY (initial : Grid) (x : Nat) : List Nat → Grid → Grid
  | [], g => g
  | y :: ys, g => applyY initial x ys (writeCell g x y (newVal initial x y))

/-- Pure effect of the outer `x` loop. -/
def applyX (initial : Grid) : List Nat → Grid → Grid
  | [], g => g
  | x :: xs, g => applyX initial xs (applyY initial x (List.range GRID_HEIGHT) g)

theorem updateLoopY_eq (initial : Grid) (x : Nat) (ys : List Nat) (g : Grid)
    (hx : x < GRID_WIDTH) (hys : ∀ y ∈ ys, y < GRID_HEIGHT) :
    updateLoopY initial x ys g = some (applyY initial x ys g) := by
  induction ys generalizing g with
  | nil => rfl
  | cons y ys ih =>
    rw [updateLoopY, updateCell_eq initial g x y hx (hys y (List.mem_cons_self y ys)),
      applyY]
    exact ih _ fun z hz => hys z (List.mem_cons_of_mem y hz)

theorem updateLoopX_eq (initial : Grid) (xs : List Nat) (g : Grid)
    (hxs : ∀ x ∈ xs, x < GRID_WIDTH) :
    updateLoopX initial xs g = some (applyX initial xs g) := by
  induction xs generalizing g with
  | nil => rfl
  | cons x xs ih =>
    rw [updateLoopX,
      updateLoopY_eq initial x _ g (hxs x (List.mem_cons_self x xs))
        (fun y hy => List.mem_range.mp hy),
      applyX]
    exact ih _ fun z hz => hxs z (List.mem_cons_of_mem x hz)

theorem applyY_apply (initial : Grid) (x : Nat) (ys : List Nat) (g : Grid) (a b : Nat) :
    applyY initial x ys g a b =
      if a = x ∧ b ∈ ys then newVal initial x b else g a b := by
  induction ys generalizing g with
  | nil => simp [applyY]
  | cons y ys ih =>
    rw [applyY, ih]
    by_cases hys : a = x ∧ b ∈ ys
    · rw [if_pos hys, if_pos ⟨hys.1, List.mem_cons_of_mem y hys.2⟩]
    · rw [if_neg hys, writeCell]
      by_cases hy : a = x ∧ b = y
      · rw [if_pos hy, if_pos ⟨hy.1, by rw [hy.2]; exact List.mem_cons_self y ys⟩, hy.2]
      · rw [if_neg hy, if_neg]
        intro hc
        rcases List.mem_cons.mp hc.2 with h | h
        · exact hy ⟨hc.1, h⟩
        · exact hys ⟨hc.1, h⟩

theorem applyX_apply (initial : Grid) (xs : List Nat) (g : Grid) (a b : Nat) :
    applyX initial xs g a b =
      if a ∈ xs ∧ b < GRID_HEIGHT then newVal initial a b else g a b := by
  induction xs generalizing g with
  | nil => simp [applyX]
  | cons x xs ih =>
    rw [applyX, ih]
    by_cases hxs : a ∈ xs ∧ b < GRID_HEIGHT
    · rw [if_pos hxs, if_pos ⟨List.mem_cons_of_mem x hxs.1, hxs.2⟩]
    · rw [if_neg hxs, applyY_apply]
      by_cases hx : a = x ∧ b ∈ List.range GRID_HEIGHT
      · obtain ⟨ha, hb⟩ := hx
        subst ha
        rw [if_pos ⟨rfl, hb⟩,
          if_pos ⟨List.mem_cons_self a xs, List.mem_range.mp hb⟩]
      · rw [if_neg hx, if_neg]
        intro hc
        rcases List.mem_cons.mp hc.1 with h | h
        · exact hx ⟨h, List.mem_range.mpr hc.2⟩
        · exact hxs ⟨h, hc.2⟩

/-- The in-place loop of `update_cells` never fails and computes exactly the
synchronous two-buffer step. -/
theorem update_cells_eq (g : Grid) : update_cells g = some (step_sync g) := by
  rw [update_cells, updateLoopX_eq g _ g (fun x hx => List.mem_range.mp hx)]
  congr 1
  funext a b
  rw [applyX_apply, step_sync]
  by_cases h : a < GRID_WIDTH ∧ b < GRID_HEIGHT
  · rw [if_pos ⟨List.mem_range.mpr h.1, h.2⟩, if_pos h, newVal]
  · rw [if_neg, if_neg h]
    intro hc
    exact h ⟨List.mem_range.mp hc.1, hc.2⟩

/-! ### Scheduler: `should_update_run` and the gated step system -/

/-- The `Paused` resource together with the `Local<u128> next_run_time` of
`should_update_run` (`Local<u128>` starts at `0`). -/
structure SchedState where
  paused : Bool
  nextRunTime : Nat
  deriving DecidableEq

/-- `fn should_update_run`: on Space just-released flip `paused`; then the
step system runs exactly when not paused and `milis > next_run_time`, in
which case `next_run_time` becomes `milis + (SPEED * 1000.0) as u128`.
Returns the `ShouldRun` decision (as `Bool`) and the updated state. -/
def should_update_run (spaceJustReleased : Bool) (milis : Nat) (s : SchedState) :
    Bool × SchedState :=
  let paused := if spaceJustReleased then !s.paused else s.paused
  if paused = false ∧ milis > s.nextRunTime then (true, ⟨paused, milis + SPEED_MS⟩)
  else (false, ⟨paused, s.nextRunTime⟩)

/-- The grid resource together with the scheduler state. -/
structure SimState where
  grid : Grid
  sched : SchedState

/-- One frame of the step pipeline: evaluate the run criteria
`should_update_run` with this frame's inputs (`spaceJustReleased`, elapsed
milliseconds) and run `update_cells` exactly when it returns `Yes`. -/
def tickFrame (s : SimState) (f : Bool × Nat) : Option SimState :=
  let r := should_update_run f.1 f.2 s.sched
  if r.1 = true then (update_cells s.grid).map fun g2 => ⟨g2, r.2⟩
  else some ⟨s.grid, r.2⟩

/-- A sequence of frames, each with its keyboard edge and elapsed time. -/
def runFrames : List (Bool × Nat) → SimState → Option SimState
  | [], s => some s
  | f :: fs, s =>
    match tickFrame s f with
    | none => none
    | some s2 => runFrames fs s2

/-! ### Mouse editing: `spawn_cells_with_mouse` -/

/-- The grid resource together with the `LastMouseCell(i32, i32)` resource
(initialized to the sentinel `(-1, -1)`). -/
structure MouseState where
  grid : Grid
  lastCell : Int × Int

/-- `fn spawn_cells_with_mouse`: when the left button is pressed and the
cursor is over the window, map the cursor to a cell; if that cell differs
from `LastMouseCell`, toggle it and remember it.  The toggle reads and
writes `state_grid.0[x][y]` at one index pair, so one bounds check models
the indexing panic (`none`).  The pixel→cell projection (float arithmetic
on the cursor position) is outside the core; `cursor` carries the
already-mapped cell `(x as usize, y as usize)` or `none` when the window
reports no cursor position. -/
def spawn_cells_with_mouse : Bool → Option (Nat × Nat) → MouseState → Option MouseState
  | false, _, s => some s
  | true, none, s => some s
  | true, some c, s =>
    if s.lastCell.1 ≠ (c.1 : Int) ∨ s.lastCell.2 ≠ (c.2 : Int) then
      if c.1 < GRID_WIDTH ∧ c.2 < GRID_HEIGHT then
        some ⟨writeCell s.grid c.1 c.2 (!s.grid c.1 c.2), ((c.1 : Int), (c.2 : Int))⟩
      else none
    else some s

/-- A sequence of mouse frames: per frame the button state and the mapped
cell under the cursor. -/
def runMouseFrames : List (Bool × Option (Nat × Nat)) → MouseState → Option MouseState
  | [], s => some s
  | f :: fs, s =>
    match spawn_cells_with_mouse f.1 f.2 s with
    | none => none
    | some s2 => runMouseFrames fs s2

/-! ### Mouse handler lemmas -/

theorem spawn_not_pressed (cursor : Option (Nat × Nat)) (s : MouseState) :
    spawn_cells_with_mouse false cursor s = some s := rfl

theorem spawn_same_cell (s : MouseState) (c : Nat × Nat)
    (h : s.lastCell = ((c.1 : Int), (c.2 : Int))) :
    spawn_cells_with_mouse true (some c) s = some s := by
  rw [spawn_cells_with_mouse, if_neg]
  push_neg
  exact ⟨congrArg Prod.fst h, congrArg Prod.snd h⟩

theorem spawn_toggle (s : MouseState) (c : Nat × Nat)
    (hx : c.1 < GRID_WIDTH) (hy : c.2 < GRID_HEIGHT)
    (h : s.lastCell ≠ ((c.1 : Int), (c.2 : Int))) :
    spawn_cells_with_mouse true (some c) s =
      some ⟨writeCell s.grid c.1 c.2 (!s.grid c.1 c.2), ((c.1 : Int), (c.2 : Int))⟩ := by
  rw [spawn_cells_with_mouse, if_pos, if_pos ⟨hx, hy⟩]
  by_contra hc
  push_neg at hc
  exact h (Prod.ext hc.1 hc.2)

theorem runMouseFrames_append (a b : List (Bool × Option (Nat × Nat))) (s : MouseState) :
    runMouseFrames (a ++ b) s =
      match runMouseFrames a s with
      | none => none
      | some s2 => runMouseFrames b s2 := by
  induction a generalizing s with
  | nil => rfl
  | cons f fs ih =>
    rw [List.cons_append, runMouseFrames, runMouseFrames]
    cases spawn_cells_with_mouse f.1 f.2 s with
    | none => rfl
    | some s2 => exact ih s2

theorem runMouseFrames_held_same_noop (s : MouseState) (c : Nat × Nat) (k : Nat)
    (h : s.lastCell = ((c.1 : Int), (c.2 : Int))) :
    runMouseFrames (List.replicate k (true, some c)) s = some s := by
  induction k with
  | zero => rfl
  | succ k ih =>
    rw [List.replicate_succ, runMouseFrames, spawn_same_cell s c h]
    exact ih

/-- Holding the button over one in-range cell `c` for `k + 1` consecutive
frames toggles `c` exactly once (on the first frame) and leaves the state
untouched on the remaining `k` frames. -/
theorem runMouseFrames_held_same (s : MouseState) (c : Nat × Nat) (k : Nat)
    (hx : c.1 < GRID_WIDTH) (hy : c.2 < GRID_HEIGHT)
    (h : s.lastCell ≠ ((c.1 : Int), (c.2 : Int))) :
    runMouseFrames (List.replicate (k + 1) (true, some c)) s =
      some ⟨writeCell s.grid c.1 c.2 (!s.grid c.1 c.2), ((c.1 : Int), (c.2 : Int))⟩ := by
  rw [List.replicate_succ, runMouseFrames, spawn_toggle s c hx hy h]
  exact runMouseFrames_held_same_noop _ c k rfl

/-- Frame stream of a held-button drag: for each visit `(c, k)` the pointer
stays mapped to cell `c` for `k + 1` consecutive frames with the button
held throughout. -/
def framesOfVisits : List ((Nat × Nat) × Nat) → List (Bool × Option (Nat × Nat))
  | [] => []
  | v :: vs => List.replicate (v.2 + 1) (true, some v.1) ++ framesOfVisits vs

/-- Toggle each listed cell once, in order. -/
def togglePath (g : Grid) : List (Nat × Nat) → Grid
  | [] => g
  | c :: cs => togglePath (writeCell g c.1 c.2 (!g c.1 c.2)) cs

/-- The `LastMouseCell` value after editing the listed cells in order. -/
def lastAfter (l : Int × Int) : List (Nat × Nat) → Int × Int
  | [] => l
  | c :: cs => lastAfter ((c.1 : Int), (c.2 : Int)) cs

theorem cell_cast_ne (c d : Nat × Nat) (h : c ≠ d) :
    ((c.1 : Int), (c.2 : Int)) ≠ ((d.1 : Int), (d.2 : Int)) := by
  intro hc
  apply h
  have h1 := congrArg Prod.fst hc
  have h2 := congrArg Prod.snd hc
  simp only at h1 h2
  exact Prod.ext (Int.ofNat.inj h1) (Int.ofNat.inj h2)

/-! ### Spec-side definitions and concrete states -/

/-- True (Euclidean) modulo wrap of a neighbor coordinate, as the spec
words it: `(x + d) mod dim`, always in `[0, dim)` even for negative
`x + d`. -/
def trueModIdx (dim : Nat) (x : Nat) (d : Int) : Nat := (((x : Int) + d) % (dim : Int)).toNat

/-- The five Conway transition rules exactly as the claim words them, as a
relation between the pre-step liveness, the pre-step neighbor count and the
committed new liveness. -/
def conwayRules (alive0 : Bool) (n : Nat) (next : Bool) : Prop :=
  (alive0 = true → n < 2 → next = false) ∧
  (alive0 = true → n > 3 → next = false) ∧
  (alive0 = true → (n = 2 ∨ n = 3) → next = true) ∧
  (alive0 = false → n = 3 → next = true) ∧
  (alive0 = false → n ≠ 3 → next = false)

theorem lifeRule_conway (alive0 : Bool) (n : Nat) : conwayRules alive0 n (lifeRule alive0 n) := by
  cases alive0 <;>
    refine ⟨?_, ?_, ?_, ?_, ?_⟩ <;>
      intro h1 h2 <;>
        simp only [lifeRule] <;> split_ifs <;> simp_all <;> omega

/-- Modelled from the spec: the `reset` keyboard command.  No reset
handling exists in `src/src/main.rs` (its only keyboard command is the
Space pause toggle in `should_update_run`); per spec §4.3, reset replaces
the grid with an all-dead grid of the same (fixed) dimensions and forces
the scheduler into the Paused state, leaving the rest of the scheduler
config as it was. -/
def resetCommand (s : SimState) : SimState :=
  ⟨fun _ _ => false, ⟨true, s.sched.nextRunTime⟩⟩

/-- The all-dead grid of the startup state. -/
def g0 : Grid := fun _ _ => false

/-- A grid whose only live cell is `(GRID_WIDTH - 1, GRID_HEIGHT - 1)`. -/
def cornerGrid : Grid := fun a b => a == 49 && b == 49

/-- Startup simulation state: all-dead grid, `Paused(true)`, due time 0. -/
def sim0 : SimState := ⟨g0, ⟨true, 0⟩⟩

/-- A running (unpaused) state with due time 0. -/
def sim1 : SimState := ⟨g0, ⟨false, 0⟩⟩

/-- Startup mouse state: all-dead grid, `LastMouseCell(-1, -1)`. -/
def mouse0 : MouseState := ⟨g0, (-1, -1)⟩

/-- A mouse state whose last edited cell is `(3, 4)`. -/
def mouse34 : MouseState := ⟨g0, (3, 4)⟩

/-- A two-stop drag: five frames over `(3, 4)`, then one frame over `(3, 5)`. -/
def visits0 : List ((Nat × Nat) × Nat) := [((3, 4), 4), ((3, 5), 0)]

/-! ### Claim C1 -/

/-- C1: refuted on the code — the neighbor coordinate used by
`update_cells` is NOT the true modulo `(x + d) mod dim`.  For `x = 0`,
`d = -1` the code computes `(-1 as i8) as usize % 50 = (2^64 - 1) % 50
= 15`, while true modulo gives `49`; consequently, on a grid whose only
live cell is `(49, 49)`, the cell `(0, 0)` counts zero live neighbors,
although the claim says `(49, 49)` is one of its eight neighbors. -/
theorem C1_code_eval :
    nbIdx GRID_WIDTH 0 (-1) = 15 ∧ trueModIdx GRID_WIDTH 0 (-1) = 49 ∧
      neighborCount cornerGrid 0 0 = 0 ∧ cornerGrid 49 49 = true := by
  decide

/-! ### Claim C2 -/

/-- C2: for every cell `(x, y)`, one step of the engine (`update_cells`)
commits the new liveness computed from the pre-step liveness and the
pre-step neighbor count exactly by the five Conway rules. -/
theorem C2_step_follows_conway_rules (g : Grid) (x y : Nat)
    (hx : x < GRID_WIDTH) (hy : y < GRID_HEIGHT)
    (g2 : Grid) (h : update_cells g = some g2) :
    conwayRules (g x y) (neighborCount g x y) (g2 x y) := by
  rw [update_cells_eq] at h
  cases h
  rw [step_sync]
  rw [if_pos ⟨hx, hy⟩]
  exact lifeRule_conway (g x y) (neighborCount g x y)

/-- Witness for C2 at the startup grid and cell `(0, 0)`. -/
theorem C2_witness :
    0 < GRID_WIDTH ∧ 0 < GRID_HEIGHT ∧
      conwayRules (g0 0 0) (neighborCount g0 0 0) (step_sync g0 0 0) :=
  ⟨by decide, by decide,
    C2_step_follows_conway_rules g0 0 0 (by decide) (by decide) (step_sync g0)
      (update_cells_eq g0)⟩

/-! ### Claim C3 -/

/-- C3: during one step every cell's liveness and neighbor count are read
from the pre-step snapshot (`initial_state_grid`), so the in-place update
of `update_cells` never fails and is extensionally equal to the synchronous
two-buffer update `step_sync` of the whole grid. -/
theorem C3_in_place_equals_two_buffer (g : Grid) : update_cells g = some (step_sync g) :=
  update_cells_eq g

/-! ### Claim C10 -/

/-- C10: with the dimensions fixed at 50×50, every array access of one
step is in bounds: for every cell and every neighbor offset the computed
indices `nx`, `ny` are strictly below 50 (the trailing `% dim` of an
always-defined `i8`/`usize` computation), and the step function is total —
`update_cells` never returns the panic value `none`. -/
theorem C10_step_in_bounds (g : Grid) :
    (∀ x : Nat, x < GRID_WIDTH → ∀ d ∈ NEIGHBORS, nbIdx GRID_WIDTH x d.1 < GRID_WIDTH) ∧
    (∀ y : Nat, y < GRID_HEIGHT → ∀ d ∈ NEIGHBORS, nbIdx GRID_HEIGHT y d.2 < GRID_HEIGHT) ∧
    (∃ g2, update_cells g = some g2) :=
  ⟨fun x _ d _ => nbIdx_lt GRID_WIDTH x d.1 (by decide),
   fun y _ d _ => nbIdx_lt GRID_HEIGHT y d.2 (by decide),
   ⟨step_sync g, update_cells_eq g⟩⟩

/-- Witness for C10 at the startup grid, cell coordinate 0 and the offset
`(-1, -1)`. -/
theorem C10_witness :
    0 < GRID_WIDTH ∧ ((-1, -1) : Int × Int) ∈ NEIGHBORS ∧
      nbIdx GRID_WIDTH 0 (-1) < GRID_WIDTH ∧ ∃ g2, update_cells g0 = some g2 :=
  ⟨by decide, by decide,
    (C10_step_in_bounds g0).1 0 (by decide) (-1, -1) (by decide),
    (C10_step_in_bounds g0).2.2⟩

/-! ### Scheduler lemmas -/

theorem should_update_run_paused (m n : Nat) :
    should_update_run false m ⟨true, n⟩ = (false, ⟨true, n⟩) := rfl

theorem should_update_run_fires (m n : Nat) (h : m > n) :
    should_update_run false m ⟨false, n⟩ = (true, ⟨false, m + SPEED_MS⟩) :=
  if_pos ⟨rfl, h⟩

theorem should_update_run_waits (m n : Nat) (h : ¬m > n) :
    should_update_run false m ⟨false, n⟩ = (false, ⟨false, n⟩) :=
  if_neg fun hc => h hc.2

theorem tickFrame_paused (g : Grid) (n m : Nat) :
    tickFrame ⟨g, ⟨true, n⟩⟩ (false, m) = some ⟨g, ⟨true, n⟩⟩ := rfl

theorem tickFrame_fires (g : Grid) (n m : Nat) (h : m > n) :
    tickFrame ⟨g, ⟨false, n⟩⟩ (false, m) =
      some ⟨step_sync g, ⟨false, m + SPEED_MS⟩⟩ := by
  simp [tickFrame, should_update_run_fires m n h, update_cells_eq]

theorem tickFrame_waits (g : Grid) (n m : Nat) (h : ¬m > n) :
    tickFrame ⟨g, ⟨false, n⟩⟩ (false, m) = some ⟨g, ⟨false, n⟩⟩ := by
  simp [tickFrame, should_update_run_waits m n h]

/-! ### Claim C4 -/

/-- C4: while paused, the tick gate never lets a step run: over any
sequence of frames with no Space release and any elapsed times, the whole
state — the grid, the pause flag and the pending `next_run_time` — is left
exactly as it was. -/
theorem C4_paused_never_steps (s : SimState) (fs : List (Bool × Nat))
    (hp : s.sched.paused = true) (hk : ∀ f ∈ fs, f.1 = false) :
    runFrames fs s = some s := by
  obtain ⟨g, p, n⟩ := s
  have hp2 : p = true := hp
  subst hp2
  induction fs with
  | nil => rfl
  | cons f fs ih =>
    obtain ⟨b, m⟩ := f
    have hb : b = false := hk (b, m) (List.mem_cons_self _ _)
    subst hb
    rw [runFrames, tickFrame_paused g n m]
    exact ih fun f hf => hk f (List.mem_cons_of_mem _ hf)

/-- Witness for C4: the paused startup state is untouched across two
frames at 700 ms and 123456 ms. -/
theorem C4_witness :
    sim0.sched.paused = true ∧
      runFrames [(false, 700), (false, 123456)] sim0 = some sim0 :=
  ⟨rfl, C4_paused_never_steps sim0 [(false, 700), (false, 123456)] rfl (by decide)⟩

/-! ### Claim C5 -/

/-- An unpaused state whose pending due time is exactly 500 ms. -/
def sim500 : SimState := ⟨g0, ⟨false, 500⟩⟩

/-- C5 counterexample: the gate uses a strict comparison, so at
`now = next_due_time` (both 500 ms, not paused) the claimed step does not
execute and the due time is not advanced — the frame is a no-op. -/
theorem C5_counterexample :
    500 ≥ 500 ∧ sim500.sched.paused = false ∧
      should_update_run false 500 sim500.sched = (false, sim500.sched) ∧
      tickFrame sim500 (false, 500) = some sim500 :=
  ⟨by decide, rfl, rfl, rfl⟩

/-- C5 (amended): while running, a frame at time `now` executes exactly one
step and sets `next_due_time = now + period` (period = `speed` in seconds
per generation, i.e. 500 ms) iff `now` is STRICTLY greater than
`next_due_time`; otherwise the frame changes nothing. -/
theorem C5_running_gate (s : SimState) (m : Nat) (hp : s.sched.paused = false) :
    (m > s.sched.nextRunTime →
       tickFrame s (false, m) = some ⟨step_sync s.grid, ⟨false, m + SPEED_MS⟩⟩) ∧
    (¬m > s.sched.nextRunTime → tickFrame s (false, m) = some s) := by
  obtain ⟨g, p, n⟩ := s
  have hp2 : p = false := hp
  subst hp2
  exact ⟨fun h => tickFrame_fires g n m h, fun h => tickFrame_waits g n m h⟩

/-- Witness for C5 at the running startup state and a frame at 1 ms. -/
theorem C5_witness :
    sim1.sched.paused = false ∧
      ((1 > sim1.sched.nextRunTime →
          tickFrame sim1 (false, 1) = some ⟨step_sync sim1.grid, ⟨false, 1 + SPEED_MS⟩⟩) ∧
       (¬1 > sim1.sched.nextRunTime → tickFrame sim1 (false, 1) = some sim1)) :=
  ⟨rfl, C5_running_gate sim1 1 rfl⟩

/-! ### Claim C9 -/

/-- C9: the reset command (modelled from the spec, see `resetCommand`)
applied after any prior evolution — i.e. to an arbitrary reachable state —
yields an entirely dead grid of the same fixed dimensions and a paused
scheduler. -/
theorem C9_reset_clears_and_pauses (s : SimState) :
    (∀ x y, (resetCommand s).grid x y = false) ∧
      (resetCommand s).sched.paused = true :=
  ⟨fun _ _ => rfl, rfl⟩

/-! ### Claim C6 -/

/-- C6: refuted on the code — `spawn_cells_with_mouse` performs no range
check before indexing, so a held button with the pointer mapped to the
out-of-range cell `(50, 0)` (pointer at the right window edge) makes the
handler index out of bounds (a panic, modelled as `none`) instead of the
claimed silent no-op. -/
theorem C6_out_of_range_panics :
    spawn_cells_with_mouse true (some (GRID_WIDTH, 0)) mouse0 = none := rfl

/-! ### Claim C7 -/

/-- C7 counterexample: press over `(3, 4)` (toggles it to alive), release,
press again over the same cell: `LastMouseCell` still holds `(3, 4)`, so
the re-press does NOT toggle again — after the three frames the cell has
been toggled exactly once (it is alive; the claim requires it toggled back
to dead). -/
theorem C7_counterexample :
    (runMouseFrames [(true, some (3, 4)), (false, some (3, 4)), (true, some (3, 4))]
        mouse0).map (fun s => (s.grid 3 4, s.lastCell)) =
      some (true, ((3 : Int), (4 : Int))) := rfl

/-- C7 (amended): a release does not re-arm toggling on the same cell —
`LastMouseCell` persists across release, so a released frame changes
nothing and a re-press over the last edited cell is a no-op; toggling
resumes only once the pointer maps to a different cell. -/
theorem C7_no_rearm_same_cell (s : MouseState) (c : Nat × Nat)
    (h : s.lastCell = ((c.1 : Int), (c.2 : Int))) :
    spawn_cells_with_mouse false (some c) s = some s ∧
      spawn_cells_with_mouse true (some c) s = some s :=
  ⟨spawn_not_pressed (some c) s, spawn_same_cell s c h⟩

/-- Witness for C7 (amended) at a state whose last edited cell is `(3, 4)`. -/
theorem C7_witness :
    mouse34.lastCell = ((3 : Int), (4 : Int)) ∧
      spawn_cells_with_mouse true (some (3, 4)) mouse34 = some mouse34 :=
  ⟨rfl, (C7_no_rearm_same_cell mouse34 (3, 4) rfl).2⟩

/-! ### Claim C8 -/

/-- C8: over a held-button drag that dwells on each visited in-range cell
for any number of consecutive frames (`k + 1` frames per visit), with
consecutive visited cells distinct and the first visited cell different
from `LastMouseCell`, the handler toggles each visited cell exactly once —
dwelling frames beyond the first are no-ops — and `LastMouseCell` ends at
the last visited cell. -/
theorem C8_drag_toggles_once_per_cell (s : MouseState)
    (visits : List ((Nat × Nat) × Nat))
    (hin : ∀ v ∈ visits, v.1.1 < GRID_WIDTH ∧ v.1.2 < GRID_HEIGHT)
    (hchain : List.Chain' (fun a b => a ≠ b) (visits.map Prod.fst))
    (hhead : ∀ v : (Nat × Nat) × Nat, visits.head? = some v →
      s.lastCell ≠ ((v.1.1 : Int), (v.1.2 : Int))) :
    runMouseFrames (framesOfVisits visits) s =
      some ⟨togglePath s.grid (visits.map Prod.fst),
        lastAfter s.lastCell (visits.map Prod.fst)⟩ := by
  induction visits generalizing s with
  | nil => rfl
  | cons v vs ih =>
    obtain ⟨c, k⟩ := v
    have hc := hin (c, k) (List.mem_cons_self _ _)
    rw [List.map_cons] at hchain
    have hch := List.chain'_cons'.mp hchain
    rw [framesOfVisits, runMouseFrames_append,
      runMouseFrames_held_same s c k hc.1 hc.2 (hhead (c, k) rfl)]
    exact ih ⟨writeCell s.grid c.1 c.2 (!s.grid c.1 c.2), ((c.1 : Int), (c.2 : Int))⟩
      (fun w hw => hin w (List.mem_cons_of_mem _ hw))
      hch.2
      (fun w hw => by
        have hm : (vs.map Prod.fst).head? = some w.1 := by
          rw [List.head?_map, hw]
          rfl
        exact cell_cast_ne c w.1 (hch.1 w.1 (Option.mem_def.mpr hm)))

/-- Witness for C8: from the startup mouse state, five held frames over
`(3, 4)` followed by one over `(3, 5)` toggle each of the two cells exactly
once. -/
theorem C8_witness :
    runMouseFrames (framesOfVisits visits0) mouse0 =
      some ⟨togglePath mouse0.grid (visits0.map Prod.fst),
        lastAfter mouse0.lastCell (visits0.map Prod.fst)⟩ :=
  C8_drag_toggles_once_per_cell mouse0 visits0 (by decide)
    (List.chain'_cons.mpr ⟨by decide, List.chain'_singleton _⟩)
    (fun v hv => by
      rw [show visits0.head? = some ((3, 4), 4) from rfl] at hv
      injection hv with h
      subst h
      decide)
